import Mathlib

/-
Verification of the escalating multi-engine equivalence prover
`Abc_NtkMiterProve` (src/base/abci/abcProve.c).

The controller is shallowly embedded as a pure Lean function.  The logic
network `Abc_Ntk_t` is an abstract type `Ntk`; every external engine the
controller consumes (`Abc_NtkMiterSat`, `Abc_NtkRewrite`, `Abc_NtkRefactor`,
`Abc_NtkBalance`, `Abc_NtkMiterIsConstant`, the fraig manager behind
`Abc_NtkMiterFraig`, `Abc_NtkCollapse`, and the structural queries
`Abc_NtkNodeNum` / `Abc_NtkCiNum` / the constant-zero BDD test) is a field of
an `Engines Ntk` record of arbitrary deterministic oracles.  C `int` and
`sint64` values are modelled as `Int` (the claims under study are not about
machine-width overflow); the `double` schedule multipliers are modelled as
exact rationals, with the C cast `(int)(...)` embedded as truncation toward
zero of the exact product.

The network's `pModel` pointer is threaded explicitly as an
`Option (List Int)`: each oracle reports the `pModel` contents it leaves on
the network it returns, a freshly constructed network (from
`Abc_NtkBalance`, `Abc_NtkFromFraig`, `Abc_NtkCollapse`) starts with no
model, and `Abc_NtkMiterFraig` attaches the fraig manager's model exactly
when the miter check returns 0, as in its source.

Every step of the controller additionally appends an `Event` to a trace so
that theorems can speak about which engine invocations a proof call
performed and with which limit arguments; the trace is pure
instrumentation and carries no control-flow significance.

One deliberate modelling cut, marked below: the inner
rewrite/refactor/balance loop of the C source does not terminate when its
step counter starts nonpositive (the decremented counter never reaches 0);
the embedding runs it on `counter.toNat` fuel, hence returns immediately in
that case.  All theorems about the loop assume a positive step budget,
where the fuel is exact.
-/

/-- Observable actions of one proof call.  Each constructor corresponds to
one call site in `Abc_NtkMiterProve` and records the limit arguments passed
there: `satMinimal` is the SAT call of the no-rewriting/no-fraiging mode
(line 83), `satCall` the per-iteration SAT call (line 103), `satLast` the
final last-resort SAT call (line 201), `optStage` the entry of the
rewriting block with its computed step counter, `modelSynth` the all-zero
model assignment (lines 206-210). -/
inductive Event where
  | satCall (nConfLimit nInsLimit : Int)
  | satMinimal (nConfLimit nInsLimit : Int)
  | satLast (nConfLimit nInsLimit : Int)
  | rewriteApp
  | refactorApp
  | balanceApp
  | optStage (counter : Int)
  | fraigCall (nBTLimit nInspLimit : Int)
  | bddCall (nBddSizeLimit : Int)
  | modelSynth
  deriving DecidableEq

/-- The fields of `Prove_Params_t` read or written by `Abc_NtkMiterProve`.
Totals and limits are C `int`/`sint64`, modelled as `Int`; the `...Multi`
growth factors are C `double`, modelled as exact rationals. -/
structure Prove_Params_t where
  nItersMax : Int
  fUseRewriting : Bool
  fUseFraiging : Bool
  fUseBdds : Bool
  fVerbose : Bool
  nMiteringLimitStart : Int
  nMiteringLimitMulti : Rat
  nRewritingLimitStart : Int
  nRewritingLimitMulti : Rat
  nFraigingLimitStart : Int
  nFraigingLimitMulti : Rat
  nMiteringLimitLast : Int
  nBddSizeLimit : Int
  fBddReorder : Bool
  nTotalBacktrackLimit : Int
  nTotalInspectLimit : Int
  nTotalBacktracksMade : Int
  nTotalInspectsMade : Int
  deriving DecidableEq

/-- Result of one `Abc_NtkMiterSat` invocation: the return value, the
consumed conflicts and inspections (written through the out-pointers when
they are non-NULL), and the `pModel` contents the engine leaves on the
network it was given. -/
structure SatOut where
  retValue : Int
  nConfs : Int
  nInspects : Int
  model : Option (List Int)

/-- Result of the fraig manager pipeline inside `Abc_NtkMiterFraig`
(`Abc_NtkToFraig` / `Fraig_ManProveMiter` / `Fraig_ManCheckMiter` /
`Abc_NtkFromFraig` and the `Fraig_ManRead...` accessors).  `ntk` is the
freshly built network of `Abc_NtkFromFraig`. -/
structure FraigOut (Ntk : Type) where
  ntk : Ntk
  retValue : Int
  nSatFails : Int
  nConfs : Int
  nInspects : Int
  modelVals : List Int

/-- The external engines `Abc_NtkMiterProve` consumes, as black-box
deterministic oracles.  The constant secondary arguments of the C call
sites (`Abc_NtkRewrite(pNtk,0,0,0)`, `Abc_NtkRefactor(pNtk,10,16,0,0,0,0)`,
`Abc_NtkBalance(pNtk,0,0,0)`, the simulation-pattern setup of
`Abc_NtkMiterFraig`, and the `0` arguments of `Abc_NtkCollapse`) are
absorbed into the oracles. -/
structure Engines (Ntk : Type) where
  miterSat : Ntk → Option (List Int) → Int → Int → SatOut
  rewriteNtk : Ntk → Ntk
  refactorNtk : Ntk → Ntk
  balanceNtk : Ntk → Ntk
  miterIsConstant : Ntk → Int
  fraigMan : Ntk → Int → Int → FraigOut Ntk
  collapse : Ntk → Int → Bool → Option Ntk
  nodeNum : Ntk → Int
  po0FaninIsConstZero : Ntk → Bool
  ciNum : Ntk → Nat

/-- Truncation toward zero of a rational, the semantics of the C cast
`(int)(...)` applied to the exact value. -/
def cTrunc (q : Rat) : Int := q.num.tdiv q.den

/-- The per-iteration limit expression
`(type)(pParams->nXxxLimitStart * pow(pParams->nXxxLimitMulti, nIter))`,
with the double arithmetic modelled exactly. -/
def stageLimit (start : Int) (multi : Rat) (i : Nat) : Int :=
  cTrunc ((start : Rat) * multi ^ i)

/-- The inspection-limit expression
`pParams->nTotalInspectLimit ? pParams->nTotalInspectLimit - pParams->nTotalInspectsMade : 0`. -/
def remainingInspects (p : Prove_Params_t) : Int :=
  if p.nTotalInspectLimit ≠ 0 then p.nTotalInspectLimit - p.nTotalInspectsMade else 0

/-- Lines 109-110 and 158-159: add one invocation's consumption to the
running totals in the parameter record. -/
def accumulate (p : Prove_Params_t) (nConfs nInspects : Int) : Prove_Params_t :=
  { p with nTotalBacktracksMade := p.nTotalBacktracksMade + nConfs,
           nTotalInspectsMade := p.nTotalInspectsMade + nInspects }

/-- The global-ceiling test of lines 112-113 and 161-162: a ceiling is
active when nonzero, and breached when the running total reached it. -/
def resourcesExceeded (p : Prove_Params_t) : Bool :=
  (decide (p.nTotalBacktrackLimit ≠ 0) &&
     decide (p.nTotalBacktrackLimit ≤ p.nTotalBacktracksMade)) ||
  (decide (p.nTotalInspectLimit ≠ 0) &&
     decide (p.nTotalInspectLimit ≤ p.nTotalInspectsMade))

/-- The transformation applied by the k-th application of the inner
rewriting loop: the fixed rotation rewrite, refactor, balance of
lines 127, 132, 137. -/
def transAt {Ntk : Type} (E : Engines Ntk) (k : Nat) (ntk : Ntk) : Ntk :=
  match k % 3 with
  | 0 => E.rewriteNtk ntk
  | 1 => E.refactorNtk ntk
  | _ => E.balanceNtk ntk

/-- Trace event of the k-th application of the inner rewriting loop. -/
def appEvent (k : Nat) : Event :=
  match k % 3 with
  | 0 => Event.rewriteApp
  | 1 => Event.refactorApp
  | _ => Event.balanceApp

/-- State leaving a stage of the controller: the live network, its model,
the current `RetValue`, and the events the stage emitted. -/
structure StageSt (Ntk : Type) where
  ntk : Ntk
  model : Option (List Int)
  retValue : Int
  trace : List Event
  deriving DecidableEq

/-- The inner `while (1)` loop of lines 125-142, linearized: the k-th
application uses the rotation `transAt`; after each application the code
checks `Abc_NtkMiterIsConstant` and returns its verdict if nonnegative,
else pre-decrements the counter and stops (with the negative check result
as `RetValue`) when it hits 0.  `Abc_NtkBalance` replaces the network by a
fresh one, so the model is dropped there.  `fuel` makes the recursion
structural; the caller passes `counter.toNat`, which is exact for a
positive counter (one application per decrement).  For a nonpositive
counter the C loop would not stop without a constant verdict; the
embedding cuts it off immediately (see the header note). -/
def optLoop {Ntk : Type} (E : Engines Ntk) :
    Nat → Ntk → Option (List Int) → Int → Nat → StageSt Ntk
  | _, ntk, model, _, 0 => ⟨ntk, model, -1, []⟩
  | k, ntk, model, counter, fuel + 1 =>
    let ntk1 := transAt E k ntk
    let model1 := if k % 3 = 2 then none else model
    let r := E.miterIsConstant ntk1
    if 0 ≤ r then ⟨ntk1, model1, r, [appEvent k]⟩
    else if counter - 1 = 0 then ⟨ntk1, model1, r, [appEvent k]⟩
    else
      let rest := optLoop E (k + 1) ntk1 model1 (counter - 1) fuel
      ⟨rest.ntk, rest.model, rest.retValue, appEvent k :: rest.trace⟩

/-- The rewriting block of lines 121-144: when enabled, compute the step
counter from the rewriting schedule and run the inner loop (the loop's
last constant check becomes the new `RetValue`); when disabled, leave
network, model and `RetValue` untouched. -/
def rwStage {Ntk : Type} (E : Engines Ntk) (p : Prove_Params_t) (i : Nat)
    (ntk : Ntk) (model : Option (List Int)) (rv : Int) : StageSt Ntk :=
  if p.fUseRewriting then
    let counter := stageLimit p.nRewritingLimitStart p.nRewritingLimitMulti i
    let res := optLoop E 0 ntk model counter counter.toNat
    ⟨res.ntk, res.model, res.retValue, Event.optStage counter :: res.trace⟩
  else ⟨ntk, model, rv, []⟩

/-- `Abc_NtkMiterFraig` (lines 226-279): run the fraig manager on the
network, replace the network by `Abc_NtkFromFraig`'s fresh one, and attach
the manager's model to it exactly when the miter check returned 0. -/
def Abc_NtkMiterFraig {Ntk : Type} (E : Engines Ntk) (ntk : Ntk)
    (nBTLimit nInspLimit : Int) : FraigOut Ntk × Option (List Int) :=
  let f := E.fraigMan ntk nBTLimit nInspLimit
  (f, if f.retValue = 0 then some f.modelVals else none)

/-- Outcome of one iteration of the escalation loop: `abort` is the
early `return -1` of lines 114-118 / 163-167, `brk` the `break` of
lines 105-106 / 154-155, `next` falls through to the next iteration.  In
every case the fields carry the live network, its model, the parameter
record (with any accumulated totals) and the current `RetValue`. -/
inductive BodyOut (Ntk : Type) where
  | abort (ntk : Ntk) (model : Option (List Int)) (p : Prove_Params_t) (tr : List Event)
  | brk (ntk : Ntk) (model : Option (List Int)) (p : Prove_Params_t) (rv : Int) (tr : List Event)
  | next (ntk : Ntk) (model : Option (List Int)) (p : Prove_Params_t) (rv : Int) (tr : List Event)

/-- Events emitted during one loop-body outcome. -/
def BodyOut.trace {Ntk : Type} : BodyOut Ntk → List Event
  | .abort _ _ _ tr => tr
  | .brk _ _ _ _ tr => tr
  | .next _ _ _ _ tr => tr

/-- Prepend earlier events of the same iteration to a body outcome. -/
def BodyOut.prependTrace {Ntk : Type} (tr : List Event) : BodyOut Ntk → BodyOut Ntk
  | .abort n m p tr2 => .abort n m p (tr ++ tr2)
  | .brk n m p rv tr2 => .brk n m p rv (tr ++ tr2)
  | .next n m p rv tr2 => .next n m p rv (tr ++ tr2)

/-- The fraiging block of lines 146-168: when enabled, call
`Abc_NtkMiterFraig` with the fraiging-schedule limit and the remaining
global inspection budget; a nonnegative verdict breaks out of the loop,
otherwise the consumption is accumulated and the global ceilings checked,
aborting the whole call on a breach.  When disabled, fall through
unchanged. -/
def fraigStage {Ntk : Type} (E : Engines Ntk) (p : Prove_Params_t) (i : Nat)
    (ntk : Ntk) (model : Option (List Int)) (rv : Int) : BodyOut Ntk :=
  if p.fUseFraiging then
    let il := remainingInspects p
    let fl := stageLimit p.nFraigingLimitStart p.nFraigingLimitMulti i
    let f := Abc_NtkMiterFraig E ntk fl il
    if 0 ≤ f.1.retValue then
      .brk f.1.ntk f.2 p f.1.retValue [Event.fraigCall fl il]
    else
      let p2 := accumulate p f.1.nConfs f.1.nInspects
      if resourcesExceeded p2 then .abort f.1.ntk f.2 p2 [Event.fraigCall fl il]
      else .next f.1.ntk f.2 p2 f.1.retValue [Event.fraigCall fl il]
  else .next ntk model p rv []

/-- The brute-force SAT attempt of line 103: `Abc_NtkMiterSat` with the
mitering-schedule limit of the current iteration and the remaining global
inspection budget. -/
def satAttempt {Ntk : Type} (E : Engines Ntk) (p : Prove_Params_t) (i : Nat)
    (ntk : Ntk) (model : Option (List Int)) : SatOut :=
  E.miterSat ntk model (stageLimit p.nMiteringLimitStart p.nMiteringLimitMulti i)
    (remainingInspects p)

/-- One iteration of the `for ( nIter = ... )` loop of lines 90-170:
the brute-force SAT attempt with the mitering-schedule limit (a
nonnegative verdict breaks), accumulation of its consumption and the
global-ceiling check (a breach aborts the call), then the rewriting block
and the fraiging block.  Note that there is no verdict check between the
rewriting and fraiging blocks: a constant verdict found by rewriting does
not break out of the loop. -/
def iterBody {Ntk : Type} (E : Engines Ntk) (p : Prove_Params_t) (i : Nat)
    (ntk : Ntk) (model : Option (List Int)) : BodyOut Ntk :=
  let il := remainingInspects p
  let lim := stageLimit p.nMiteringLimitStart p.nMiteringLimitMulti i
  let out := satAttempt E p i ntk model
  BodyOut.prependTrace [Event.satCall lim il]
    (if 0 ≤ out.retValue then .brk ntk out.model p out.retValue []
     else
       let p1 := accumulate p out.nConfs out.nInspects
       if resourcesExceeded p1 then .abort ntk out.model p1 []
       else
         let res := rwStage E p1 i ntk out.model out.retValue
         BodyOut.prependTrace res.trace
           (fraigStage E p1 i res.ntk res.model res.retValue))

/-- Final result of a proof call: the `RetValue` returned, the surviving
network written back through `ppNtk`, its model, the parameter record with
its accumulated totals, and the trace of the whole call. -/
structure ProveResult (Ntk : Type) where
  retValue : Int
  ntk : Ntk
  model : Option (List Int)
  params : Prove_Params_t
  trace : List Event
  deriving DecidableEq

/-- Outcome of the whole escalation loop: either an early `return -1`
from inside an iteration, or fall-through to the code after the loop with
the current state and `RetValue`. -/
inductive LoopOut (Ntk : Type) where
  | earlyReturn (r : ProveResult Ntk)
  | fallThrough (p : Prove_Params_t) (ntk : Ntk) (model : Option (List Int))
      (rv : Int) (tr : List Event)

/-- The escalation loop: run `iterBody` for iteration indices `i`,
`i + 1`, ... while fuel remains (the caller passes
`nItersMax.toNat`), threading state and the `RetValue` variable.  A
`brk` outcome falls through with the body's verdict; an `abort` outcome
returns from the whole call. -/
def runIters {Ntk : Type} (E : Engines Ntk) :
    Nat → Nat → Prove_Params_t → Ntk → Option (List Int) → Int → LoopOut Ntk
  | _, 0, p, ntk, model, rv => .fallThrough p ntk model rv []
  | i, fuel + 1, p, ntk, model, rv =>
    match iterBody E p i ntk model with
    | .abort n m p1 tr =>
      .earlyReturn { retValue := -1, ntk := n, model := m, params := p1, trace := tr }
    | .brk n m p1 rv1 tr => .fallThrough p1 n m rv1 tr
    | .next n m p1 rv1 tr =>
      match runIters E (i + 1) fuel p1 n m rv1 with
      | .earlyReturn r => .earlyReturn { r with trace := tr ++ r.trace }
      | .fallThrough p2 n2 m2 rv2 tr2 => .fallThrough p2 n2 m2 rv2 (tr ++ tr2)

/-- The BDD block of lines 172-190: when the loop ended without a verdict
and BDDs are enabled, attempt `Abc_NtkCollapse` with the node ceiling and
reorder flag.  On success the fresh collapsed network replaces the live
one (its model is empty) and `RetValue` becomes the C truth value of
"one node whose output fanin is the constant-zero BDD" (1 or 0); on
failure the original network stays live and `RetValue` is unchanged. -/
def bddStage {Ntk : Type} (E : Engines Ntk) (p : Prove_Params_t) (ntk : Ntk)
    (model : Option (List Int)) (rv : Int) : StageSt Ntk :=
  if rv < 0 ∧ p.fUseBdds then
    match E.collapse ntk p.nBddSizeLimit p.fBddReorder with
    | some ntk1 =>
      ⟨ntk1, none,
        if E.nodeNum ntk1 = 1 ∧ E.po0FaninIsConstZero ntk1 = true then 1 else 0,
        [Event.bddCall p.nBddSizeLimit]⟩
    | none => ⟨ntk, model, rv, [Event.bddCall p.nBddSizeLimit]⟩
  else ⟨ntk, model, rv, []⟩

/-- The final SAT block of lines 192-203: when still inconclusive, one
last `Abc_NtkMiterSat` attempt with the last-resort limit and the
remaining global inspection budget, with NULL consumption out-pointers;
its verdict (of whatever sign) becomes the outcome. -/
def lastSatStage {Ntk : Type} (E : Engines Ntk) (p : Prove_Params_t) (ntk : Ntk)
    (model : Option (List Int)) (rv : Int) : StageSt Ntk :=
  if rv < 0 then
    let il := remainingInspects p
    let out := E.miterSat ntk model p.nMiteringLimitLast il
    ⟨ntk, out.model, out.retValue, [Event.satLast p.nMiteringLimitLast il]⟩
  else ⟨ntk, model, rv, []⟩

/-- Lines 205-210: when the outcome is 0 and the surviving network carries
no model, attach an all-zero model with one entry per combinational
input. -/
def assembleModel {Ntk : Type} (E : Engines Ntk) (ntk : Ntk)
    (model : Option (List Int)) (rv : Int) : Option (List Int) × List Event :=
  if rv = 0 ∧ model = none then
    (some (List.replicate (E.ciNum ntk) 0), [Event.modelSynth])
  else (model, [])

/-- `Abc_NtkMiterProve` (lines 55-213).  `rvInit` models the content of
the uninitialized local variable `RetValue` at function entry: it is the
value read after the loop when the loop body never executed.  The entry
assertions (structashed network, single primary output) are preconditions
on the abstract network and are outside the embedded state. -/
def Abc_NtkMiterProve {Ntk : Type} (E : Engines Ntk) (p : Prove_Params_t)
    (ntk : Ntk) (model : Option (List Int)) (rvInit : Int) : ProveResult Ntk :=
  if p.fUseRewriting = false ∧ p.fUseFraiging = false then
    let out := E.miterSat ntk model p.nMiteringLimitLast 0
    { retValue := out.retValue, ntk := ntk, model := out.model, params := p,
      trace := [Event.satMinimal p.nMiteringLimitLast 0] }
  else
    match runIters E 0 p.nItersMax.toNat p ntk model rvInit with
    | .earlyReturn r => r
    | .fallThrough p1 ntk1 model1 rv1 tr1 =>
      let b := bddStage E p1 ntk1 model1 rv1
      let s := lastSatStage E p1 b.ntk b.model b.retValue
      let a := assembleModel E s.ntk s.model s.retValue
      { retValue := s.retValue, ntk := s.ntk, model := a.1, params := p1,
        trace := tr1 ++ b.trace ++ s.trace ++ a.2 }

/-- Events that can be emitted inside the escalation loop: everything except
the BDD call, the final SAT call, the minimal-mode SAT call and the model
synthesis, which all live outside the loop. -/
def Event.inLoop : Event → Bool
  | .bddCall _ => false
  | .satLast _ _ => false
  | .satMinimal _ _ => false
  | .modelSynth => false
  | _ => true

/-- A baseline parameter record for concrete runs: one iteration, all
engines off, trivial schedules, no global ceilings, zero totals. -/
def basePar : Prove_Params_t where
  nItersMax := 1
  fUseRewriting := false
  fUseFraiging := false
  fUseBdds := false
  fVerbose := false
  nMiteringLimitStart := 8
  nMiteringLimitMulti := 1
  nRewritingLimitStart := 1
  nRewritingLimitMulti := 1
  nFraigingLimitStart := 6
  nFraigingLimitMulti := 1
  nMiteringLimitLast := 9
  nBddSizeLimit := 50
  fBddReorder := false
  nTotalBacktrackLimit := 0
  nTotalInspectLimit := 0
  nTotalBacktracksMade := 0
  nTotalInspectsMade := 0

/-- Engines over `Nat` networks whose SAT and fraig oracles never decide
and consume nothing. -/
def idleEng : Engines Nat where
  miterSat := fun _ _ _ _ => ⟨-1, 0, 0, none⟩
  rewriteNtk := id
  refactorNtk := id
  balanceNtk := id
  miterIsConstant := fun _ => -1
  fraigMan := fun n _ _ => ⟨n, -1, 0, 0, 0, []⟩
  collapse := fun _ _ _ => none
  nodeNum := fun _ => 5
  po0FaninIsConstZero := fun _ => false
  ciNum := fun _ => 2

/-- Parameters with a zero iteration cap while rewriting is enabled. -/
def zeroCapPar : Prove_Params_t := { basePar with nItersMax := 0, fUseRewriting := true }

/-- Engines over `Nat` networks where one rewriting application turns the
miter into a detected constant (verdict 1, Unsat) while the fraig engine
reports 0 (Sat) with a model. -/
def rwConstEng : Engines Nat where
  miterSat := fun _ _ _ _ => ⟨-1, 0, 0, none⟩
  rewriteNtk := fun _ => 1
  refactorNtk := id
  balanceNtk := id
  miterIsConstant := fun n => if n = 1 then 1 else -1
  fraigMan := fun _ _ _ => ⟨42, 0, 0, 0, 0, [5]⟩
  collapse := fun _ _ _ => none
  nodeNum := fun _ => 5
  po0FaninIsConstZero := fun _ => false
  ciNum := fun _ => 2

/-- Parameters with rewriting and fraiging enabled. -/
def rwConstPar : Prove_Params_t :=
  { basePar with fUseRewriting := true, fUseFraiging := true }

/-- Parameters with only rewriting enabled. -/
def rwOnlyPar : Prove_Params_t := { basePar with fUseRewriting := true }

/-- Engines whose SAT oracle answers Unsat while consuming 5 conflicts
and 7 inspections. -/
def consumingSatEng : Engines Nat :=
  { idleEng with miterSat := fun _ _ _ _ => ⟨1, 5, 7, none⟩ }

/-- Minimal-effort-mode parameters with a global inspection ceiling of 1. -/
def minimalCeilPar : Prove_Params_t := { basePar with nTotalInspectLimit := 1 }

/-- Engines whose collapse succeeds with a three-node, non-constant-zero
diagram. -/
def bddSatEng : Engines Nat :=
  { idleEng with collapse := fun _ _ _ => some 99, nodeNum := fun _ => 3 }

/-- Parameters with fraiging and BDDs enabled. -/
def bddPar : Prove_Params_t := { basePar with fUseFraiging := true, fUseBdds := true }

/-- Parameters with BDDs enabled (used with the always-failing collapse). -/
def bddFailPar : Prove_Params_t := { basePar with fUseBdds := true }

/-- Engines whose SAT oracle reports Sat with an attached model. -/
def satZeroEng : Engines Nat :=
  { idleEng with miterSat := fun _ _ _ _ => ⟨0, 0, 0, some [1, 0]⟩ }

/-- Engines whose SAT oracle times out while consuming 5 conflicts and 7
inspections. -/
def timeoutSatEng : Engines Nat :=
  { idleEng with miterSat := fun _ _ _ _ => ⟨-1, 5, 7, none⟩ }

/-- Parameters with a global inspection ceiling of 3. -/
def ceilPar : Prove_Params_t := { basePar with nTotalInspectLimit := 3 }

/-- Truncation toward zero agrees with the floor on nonnegative rationals. -/
theorem cTrunc_eq_floor (q : Rat) (h : 0 ≤ q) : cTrunc q = Int.floor q := by
  rw [cTrunc, Int.tdiv_eq_ediv (Rat.num_nonneg.mpr h) (by positivity), Rat.floor_def]

/-- Unfolding equation of `optLoop` at positive fuel. -/
theorem optLoop_succ {Ntk : Type} (E : Engines Ntk) (k : Nat) (ntk : Ntk)
    (model : Option (List Int)) (counter : Int) (n : Nat) :
    optLoop E k ntk model counter (n + 1) =
      (let ntk1 := transAt E k ntk
       let model1 := if k % 3 = 2 then none else model
       let r := E.miterIsConstant ntk1
       if 0 ≤ r then ⟨ntk1, model1, r, [appEvent k]⟩
       else if counter - 1 = 0 then ⟨ntk1, model1, r, [appEvent k]⟩
       else
         let rest := optLoop E (k + 1) ntk1 model1 (counter - 1) n
         ⟨rest.ntk, rest.model, rest.retValue, appEvent k :: rest.trace⟩) := rfl

/-- Behaviour of the inner rewriting loop on a positive step counter with
exact fuel: the trace lists the applications in the fixed rotation starting
at index `k`, at most `counter` applications happen, the returned verdict
is the constant check of the final network, and a negative verdict is
returned only once the full budget was spent. -/
theorem optLoop_spec {Ntk : Type} (E : Engines Ntk) :
    ∀ (fuel k : Nat) (ntk : Ntk) (model : Option (List Int)) (counter : Int),
      1 ≤ counter → counter.toNat ≤ fuel →
      (optLoop E k ntk model counter fuel).trace =
          (List.range (optLoop E k ntk model counter fuel).trace.length).map
            (fun j => appEvent (k + j))
      ∧ (optLoop E k ntk model counter fuel).trace.length ≤ counter.toNat
      ∧ E.miterIsConstant (optLoop E k ntk model counter fuel).ntk =
          (optLoop E k ntk model counter fuel).retValue
      ∧ ((optLoop E k ntk model counter fuel).retValue < 0 →
          (optLoop E k ntk model counter fuel).trace.length = counter.toNat) := by
  intro fuel
  induction fuel with
  | zero => intro k ntk model counter h1 h2; omega
  | succ n ih =>
    intro k ntk model counter h1 h2
    rw [optLoop_succ]
    dsimp only
    by_cases hc : 0 ≤ E.miterIsConstant (transAt E k ntk)
    · rw [if_pos hc]
      dsimp only
      refine ⟨by rfl, by simp; omega, rfl, fun hlt => absurd hc (by omega)⟩
    · rw [if_neg hc]
      by_cases hcnt : counter - 1 = 0
      · rw [if_pos hcnt]
        dsimp only
        refine ⟨by rfl, by simp; omega, rfl, fun _ => by simp; omega⟩
      · rw [if_neg hcnt]
        dsimp only
        have h1' : 1 ≤ counter - 1 := by omega
        have h2' : (counter - 1).toNat ≤ n := by omega
        obtain ⟨htr, hlen, hcst, hneg⟩ :=
          ih (k + 1) (transAt E k ntk) (if k % 3 = 2 then none else model) (counter - 1) h1' h2'
        refine ⟨?_, by simp; omega, hcst, fun hlt => by simp; rw [hneg hlt]; omega⟩
        simp only [List.length_cons, List.range_succ_eq_map, List.map_cons, List.map_map,
          Nat.add_zero]
        congr 1
        conv_lhs => rw [htr]
        apply List.map_congr_left
        intro j hj
        simp only [Function.comp]
        congr 1
        omega

/-- The trace of a body outcome with earlier events prepended. -/
theorem prependTrace_trace {Ntk : Type} (tr : List Event) (b : BodyOut Ntk) :
    (BodyOut.prependTrace tr b).trace = tr ++ b.trace := by
  cases b <;> rfl

theorem appEvent_inLoop (k : Nat) : (appEvent k).inLoop = true := by
  unfold appEvent
  split <;> rfl

theorem optLoop_trace_inLoop {Ntk : Type} (E : Engines Ntk) :
    ∀ (fuel k : Nat) (ntk : Ntk) (model : Option (List Int)) (counter : Int),
      ∀ e ∈ (optLoop E k ntk model counter fuel).trace, e.inLoop = true := by
  intro fuel
  induction fuel with
  | zero => intro k ntk model counter e he; simp [optLoop] at he
  | succ n ih =>
    intro k ntk model counter e he
    rw [optLoop_succ] at he
    dsimp only at he
    split at he
    · simp only [List.mem_singleton] at he; subst he; exact appEvent_inLoop k
    · split at he
      · simp only [List.mem_singleton] at he; subst he; exact appEvent_inLoop k
      · simp only [List.mem_cons] at he
        rcases he with he | he
        · subst he; exact appEvent_inLoop k
        · exact ih _ _ _ _ e he

theorem rwStage_trace_inLoop {Ntk : Type} (E : Engines Ntk) (p : Prove_Params_t) (i : Nat)
    (ntk : Ntk) (model : Option (List Int)) (rv : Int) :
    ∀ e ∈ (rwStage E p i ntk model rv).trace, e.inLoop = true := by
  intro e he
  unfold rwStage at he
  split at he
  · dsimp only at he
    simp only [List.mem_cons] at he
    rcases he with he | he
    · subst he; rfl
    · exact optLoop_trace_inLoop E _ _ _ _ _ e he
  · simp at he

theorem fraigStage_trace_inLoop {Ntk : Type} (E : Engines Ntk) (p : Prove_Params_t) (i : Nat)
    (ntk : Ntk) (model : Option (List Int)) (rv : Int) :
    ∀ e ∈ (fraigStage E p i ntk model rv).trace, e.inLoop = true := by
  intro e he
  unfold fraigStage at he
  split at he
  · dsimp only at he
    split at he
    · simp only [BodyOut.trace, List.mem_singleton] at he; subst he; rfl
    · split at he
      · simp only [BodyOut.trace, List.mem_singleton] at he; subst he; rfl
      · simp only [BodyOut.trace, List.mem_singleton] at he; subst he; rfl
  · simp [BodyOut.trace] at he

theorem iterBody_trace_inLoop {Ntk : Type} (E : Engines Ntk) (p : Prove_Params_t) (i : Nat)
    (ntk : Ntk) (model : Option (List Int)) :
    ∀ e ∈ (iterBody E p i ntk model).trace, e.inLoop = true := by
  intro e he
  unfold iterBody at he
  rw [prependTrace_trace] at he
  simp only [List.mem_append, List.mem_singleton] at he
  rcases he with he | he
  · subst he; rfl
  · split at he
    · simp [BodyOut.trace] at he
    · split at he
      · simp [BodyOut.trace] at he
      · rw [prependTrace_trace] at he
        simp only [List.mem_append] at he
        rcases he with he | he
        · exact rwStage_trace_inLoop E _ i ntk _ _ e he
        · exact fraigStage_trace_inLoop E _ i _ _ _ e he

/-- Unfolding equation of `runIters` at zero fuel. -/
theorem runIters_zero {Ntk : Type} (E : Engines Ntk) (i : Nat) (p : Prove_Params_t)
    (ntk : Ntk) (model : Option (List Int)) (rv : Int) :
    runIters E i 0 p ntk model rv = .fallThrough p ntk model rv [] := rfl

/-- Unfolding equation of `runIters` at positive fuel. -/
theorem runIters_succ {Ntk : Type} (E : Engines Ntk) (i n : Nat) (p : Prove_Params_t)
    (ntk : Ntk) (model : Option (List Int)) (rv : Int) :
    runIters E i (n + 1) p ntk model rv =
      (match iterBody E p i ntk model with
       | .abort n2 m p1 tr =>
         .earlyReturn { retValue := -1, ntk := n2, model := m, params := p1, trace := tr }
       | .brk n2 m p1 rv1 tr => .fallThrough p1 n2 m rv1 tr
       | .next n2 m p1 rv1 tr =>
         match runIters E (i + 1) n p1 n2 m rv1 with
         | .earlyReturn r => .earlyReturn { r with trace := tr ++ r.trace }
         | .fallThrough p2 n3 m2 rv2 tr2 => .fallThrough p2 n3 m2 rv2 (tr ++ tr2)) := rfl

/-- An early return of the escalation loop carries `RetValue = -1` and a
trace of loop-internal events only: no BDD attempt, no final or
minimal-mode SAT attempt, no model synthesis happened before it. -/
theorem runIters_earlyReturn {Ntk : Type} (E : Engines Ntk) :
    ∀ (fuel i : Nat) (p : Prove_Params_t) (ntk : Ntk) (model : Option (List Int)) (rv : Int)
      (r : ProveResult Ntk),
      runIters E i fuel p ntk model rv = .earlyReturn r →
      r.retValue = -1 ∧ ∀ e ∈ r.trace, e.inLoop = true := by
  intro fuel
  induction fuel with
  | zero =>
    intro i p ntk model rv r h
    rw [runIters_zero] at h
    exact absurd h (by simp)
  | succ n ih =>
    intro i p ntk model rv r h
    rw [runIters_succ] at h
    cases hb : iterBody E p i ntk model with
    | abort n2 m p1 tr =>
      rw [hb] at h
      dsimp only at h
      simp only [LoopOut.earlyReturn.injEq] at h
      subst h
      refine ⟨rfl, ?_⟩
      have hcl := iterBody_trace_inLoop E p i ntk model
      rw [hb] at hcl
      exact hcl
    | brk n2 m p1 rv1 tr =>
      rw [hb] at h
      exact absurd h (by simp)
    | next n2 m p1 rv1 tr =>
      rw [hb] at h
      dsimp only at h
      cases hr : runIters E (i + 1) n p1 n2 m rv1 with
      | earlyReturn r0 =>
        rw [hr] at h
        simp only [LoopOut.earlyReturn.injEq] at h
        subst h
        obtain ⟨hrv, htr⟩ := ih (i + 1) p1 n2 m rv1 r0 hr
        refine ⟨hrv, ?_⟩
        intro e he
        simp only [List.mem_append] at he
        rcases he with he | he
        · have hcl := iterBody_trace_inLoop E p i ntk model
          rw [hb] at hcl
          exact hcl e he
        · exact htr e he
      | fallThrough p2 n3 m2 rv2 tr2 =>
        rw [hr] at h
        exact absurd h (by simp)

/-- When the escalation loop returns early, the whole proof call returns
that result unchanged. -/
theorem miterProve_earlyReturn {Ntk : Type} (E : Engines Ntk) (p : Prove_Params_t)
    (ntk : Ntk) (model : Option (List Int)) (rvInit : Int) (r : ProveResult Ntk)
    (hmode : ¬(p.fUseRewriting = false ∧ p.fUseFraiging = false))
    (h : runIters E 0 p.nItersMax.toNat p ntk model rvInit = .earlyReturn r) :
    Abc_NtkMiterProve E p ntk model rvInit = r := by
  unfold Abc_NtkMiterProve
  rw [if_neg hmode, h]

/-- When the escalation loop falls through, the proof call continues with
the BDD block, the final SAT block and the model assembly on the
fall-through state. -/
theorem miterProve_fallThrough {Ntk : Type} (E : Engines Ntk) (p : Prove_Params_t)
    (ntk : Ntk) (model : Option (List Int)) (rvInit : Int) (p1 : Prove_Params_t)
    (ntk1 : Ntk) (model1 : Option (List Int)) (rv1 : Int) (tr1 : List Event)
    (hmode : ¬(p.fUseRewriting = false ∧ p.fUseFraiging = false))
    (h : runIters E 0 p.nItersMax.toNat p ntk model rvInit = .fallThrough p1 ntk1 model1 rv1 tr1) :
    Abc_NtkMiterProve E p ntk model rvInit =
      (let b := bddStage E p1 ntk1 model1 rv1
       let s := lastSatStage E p1 b.ntk b.model b.retValue
       let a := assembleModel E s.ntk s.model s.retValue
       { retValue := s.retValue, ntk := s.ntk, model := a.1, params := p1,
         trace := tr1 ++ b.trace ++ s.trace ++ a.2 }) := by
  unfold Abc_NtkMiterProve
  rw [if_neg hmode, h]

/-- Line 105: a nonnegative verdict of the per-iteration SAT attempt
breaks out of the loop immediately with that verdict, totals untouched. -/
theorem iterBody_sat_brk {Ntk : Type} (E : Engines Ntk) (p : Prove_Params_t) (i : Nat)
    (ntk : Ntk) (model : Option (List Int))
    (h : 0 ≤ (satAttempt E p i ntk model).retValue) :
    iterBody E p i ntk model =
      .brk ntk (satAttempt E p i ntk model).model p (satAttempt E p i ntk model).retValue
        [Event.satCall (stageLimit p.nMiteringLimitStart p.nMiteringLimitMulti i)
           (remainingInspects p)] := by
  unfold iterBody
  simp only []
  rw [if_pos h]
  rfl

/-- Lines 108-118: after an inconclusive per-iteration SAT attempt, its
consumption is added to the running totals and on a ceiling breach the
whole call aborts there with the current network and the updated totals. -/
theorem iterBody_sat_abort {Ntk : Type} (E : Engines Ntk) (p : Prove_Params_t) (i : Nat)
    (ntk : Ntk) (model : Option (List Int))
    (h1 : (satAttempt E p i ntk model).retValue < 0)
    (h2 : resourcesExceeded (accumulate p (satAttempt E p i ntk model).nConfs
        (satAttempt E p i ntk model).nInspects) = true) :
    iterBody E p i ntk model =
      .abort ntk (satAttempt E p i ntk model).model
        (accumulate p (satAttempt E p i ntk model).nConfs (satAttempt E p i ntk model).nInspects)
        [Event.satCall (stageLimit p.nMiteringLimitStart p.nMiteringLimitMulti i)
           (remainingInspects p)] := by
  unfold iterBody
  simp only []
  rw [if_neg (not_le.mpr h1), if_pos h2]
  rfl

/-- Lines 100-144 composed: after an inconclusive SAT attempt with no
ceiling breach, the body runs the rewriting block and then the fraiging
block on its result, with the accumulated totals. -/
theorem iterBody_sat_cont {Ntk : Type} (E : Engines Ntk) (p : Prove_Params_t) (i : Nat)
    (ntk : Ntk) (model : Option (List Int))
    (h1 : (satAttempt E p i ntk model).retValue < 0)
    (h2 : resourcesExceeded (accumulate p (satAttempt E p i ntk model).nConfs
        (satAttempt E p i ntk model).nInspects) = false) :
    iterBody E p i ntk model =
      (let out := satAttempt E p i ntk model
       let p1 := accumulate p out.nConfs out.nInspects
       let res := rwStage E p1 i ntk out.model out.retValue
       BodyOut.prependTrace
         [Event.satCall (stageLimit p.nMiteringLimitStart p.nMiteringLimitMulti i)
            (remainingInspects p)]
         (BodyOut.prependTrace res.trace (fraigStage E p1 i res.ntk res.model res.retValue))) := by
  unfold iterBody
  simp only []
  rw [if_neg (not_le.mpr h1), if_neg (by simp [h2])]

/-- Lines 154-155: a nonnegative fraig verdict breaks out of the loop with
the fraig-built network and, when the verdict is 0, the fraig model. -/
theorem fraigStage_brk {Ntk : Type} (E : Engines Ntk) (p : Prove_Params_t) (i : Nat)
    (ntk : Ntk) (model : Option (List Int)) (rv : Int)
    (hf : p.fUseFraiging = true)
    (h : 0 ≤ (E.fraigMan ntk (stageLimit p.nFraigingLimitStart p.nFraigingLimitMulti i)
        (remainingInspects p)).retValue) :
    fraigStage E p i ntk model rv =
      (let f := Abc_NtkMiterFraig E ntk
         (stageLimit p.nFraigingLimitStart p.nFraigingLimitMulti i) (remainingInspects p)
       BodyOut.brk f.1.ntk f.2 p f.1.retValue
         [Event.fraigCall (stageLimit p.nFraigingLimitStart p.nFraigingLimitMulti i)
            (remainingInspects p)]) := by
  unfold fraigStage
  rw [if_pos hf]
  simp only [Abc_NtkMiterFraig]
  rw [if_pos h]

/-- Lines 157-167: after an inconclusive fraig attempt, its consumption is
added to the running totals and on a ceiling breach the whole call aborts
with the fraig-built network (the current live one) and updated totals. -/
theorem fraigStage_abort {Ntk : Type} (E : Engines Ntk) (p : Prove_Params_t) (i : Nat)
    (ntk : Ntk) (model : Option (List Int)) (rv : Int)
    (hf : p.fUseFraiging = true)
    (h1 : (E.fraigMan ntk (stageLimit p.nFraigingLimitStart p.nFraigingLimitMulti i)
        (remainingInspects p)).retValue < 0)
    (h2 : resourcesExceeded (accumulate p
        (E.fraigMan ntk (stageLimit p.nFraigingLimitStart p.nFraigingLimitMulti i)
          (remainingInspects p)).nConfs
        (E.fraigMan ntk (stageLimit p.nFraigingLimitStart p.nFraigingLimitMulti i)
          (remainingInspects p)).nInspects) = true) :
    fraigStage E p i ntk model rv =
      (let f := Abc_NtkMiterFraig E ntk
         (stageLimit p.nFraigingLimitStart p.nFraigingLimitMulti i) (remainingInspects p)
       BodyOut.abort f.1.ntk f.2 (accumulate p f.1.nConfs f.1.nInspects)
         [Event.fraigCall (stageLimit p.nFraigingLimitStart p.nFraigingLimitMulti i)
            (remainingInspects p)]) := by
  unfold fraigStage
  rw [if_pos hf]
  simp only [Abc_NtkMiterFraig]
  rw [if_neg (not_le.mpr h1), if_pos h2]

/-- Lines 157-167: after an inconclusive fraig attempt with no ceiling
breach, the loop continues with the fraig-built network and updated
totals. -/
theorem fraigStage_cont {Ntk : Type} (E : Engines Ntk) (p : Prove_Params_t) (i : Nat)
    (ntk : Ntk) (model : Option (List Int)) (rv : Int)
    (hf : p.fUseFraiging = true)
    (h1 : (E.fraigMan ntk (stageLimit p.nFraigingLimitStart p.nFraigingLimitMulti i)
        (remainingInspects p)).retValue < 0)
    (h2 : resourcesExceeded (accumulate p
        (E.fraigMan ntk (stageLimit p.nFraigingLimitStart p.nFraigingLimitMulti i)
          (remainingInspects p)).nConfs
        (E.fraigMan ntk (stageLimit p.nFraigingLimitStart p.nFraigingLimitMulti i)
          (remainingInspects p)).nInspects) = false) :
    fraigStage E p i ntk model rv =
      (let f := Abc_NtkMiterFraig E ntk
         (stageLimit p.nFraigingLimitStart p.nFraigingLimitMulti i) (remainingInspects p)
       BodyOut.next f.1.ntk f.2 (accumulate p f.1.nConfs f.1.nInspects) f.1.retValue
         [Event.fraigCall (stageLimit p.nFraigingLimitStart p.nFraigingLimitMulti i)
            (remainingInspects p)]) := by
  unfold fraigStage
  rw [if_pos hf]
  simp only [Abc_NtkMiterFraig]
  rw [if_neg (not_le.mpr h1), if_neg (by simp [h2])]

/-- C4: for every network and every positive step budget, the rewriting
driver (the inner loop exactly as the rewriting block invokes it) applies
rewrite, refactor, balance in the fixed rotation (the j-th application is
`appEvent j`), performs at most `counter` applications in total, its
verdict is the structural-constant check of the last network it produced
(so a detected constant is returned the moment the check after an
application reports it), and a negative "no verdict" outcome occurs only
after the full budget of `counter` applications was spent. -/
theorem optimization_driver_contract {Ntk : Type} (E : Engines Ntk) (ntk : Ntk)
    (model : Option (List Int)) (counter : Int) (h : 1 ≤ counter) :
    (optLoop E 0 ntk model counter counter.toNat).trace =
        (List.range (optLoop E 0 ntk model counter counter.toNat).trace.length).map appEvent
    ∧ (optLoop E 0 ntk model counter counter.toNat).trace.length ≤ counter.toNat
    ∧ E.miterIsConstant (optLoop E 0 ntk model counter counter.toNat).ntk =
        (optLoop E 0 ntk model counter counter.toNat).retValue
    ∧ ((optLoop E 0 ntk model counter counter.toNat).retValue < 0 →
        (optLoop E 0 ntk model counter counter.toNat).trace.length = counter.toNat) := by
  obtain ⟨h1, h2, h3, h4⟩ := optLoop_spec E counter.toNat 0 ntk model counter h (le_refl _)
  refine ⟨?_, h2, h3, h4⟩
  conv_lhs => rw [h1]
  apply List.map_congr_left
  intro j hj
  simp

/-- C6: the per-stage limit of iteration `i` equals the floor of
`start * factor^i` whenever the starting limit and the factor are
nonnegative (there truncation toward zero is the floor); for start 100 and
factor 2 the limits of iterations 0, 1, 2 are 100, 200, 400; and the loop
body passes exactly these schedule values to the three stages: its first
event is always the SAT call with the mitering-schedule limit, an enabled
rewriting block starts with the rewriting-schedule step counter, and an
enabled fraiging block invokes the fraig engine with the fraiging-schedule
limit. -/
theorem geometric_schedule :
    (∀ (start : Int) (multi : Rat) (i : Nat), 0 ≤ start → 0 ≤ multi →
       stageLimit start multi i = Int.floor ((start : Rat) * multi ^ i))
    ∧ stageLimit 100 2 0 = 100 ∧ stageLimit 100 2 1 = 200 ∧ stageLimit 100 2 2 = 400
    ∧ (∀ (Ntk : Type) (E : Engines Ntk) (p : Prove_Params_t) (i : Nat) (ntk : Ntk)
         (model : Option (List Int)),
         (iterBody E p i ntk model).trace.head? =
           some (Event.satCall (stageLimit p.nMiteringLimitStart p.nMiteringLimitMulti i)
             (remainingInspects p)))
    ∧ (∀ (Ntk : Type) (E : Engines Ntk) (p : Prove_Params_t) (i : Nat) (ntk : Ntk)
         (model : Option (List Int)) (rv : Int), p.fUseRewriting = true →
         (rwStage E p i ntk model rv).trace.head? =
           some (Event.optStage (stageLimit p.nRewritingLimitStart p.nRewritingLimitMulti i)))
    ∧ (∀ (Ntk : Type) (E : Engines Ntk) (p : Prove_Params_t) (i : Nat) (ntk : Ntk)
         (model : Option (List Int)) (rv : Int), p.fUseFraiging = true →
         (fraigStage E p i ntk model rv).trace.head? =
           some (Event.fraigCall (stageLimit p.nFraigingLimitStart p.nFraigingLimitMulti i)
             (remainingInspects p))) := by
  refine ⟨?_, ?_, ?_, ?_, ?_, ?_, ?_⟩
  · intro start multi i hs hm
    rw [stageLimit]
    exact cTrunc_eq_floor _ (by positivity)
  · rw [stageLimit, cTrunc_eq_floor _ (by norm_num)]; norm_num
  · rw [stageLimit, cTrunc_eq_floor _ (by norm_num)]; norm_num
  · rw [stageLimit, cTrunc_eq_floor _ (by norm_num)]; norm_num
  · intro Ntk E p i ntk model
    unfold iterBody
    simp only []
    rw [prependTrace_trace]
    rfl
  · intro Ntk E p i ntk model rv hrw
    unfold rwStage
    rw [if_pos hrw]
    rfl
  · intro Ntk E p i ntk model rv hf
    unfold fraigStage
    rw [if_pos hf]
    simp only [Abc_NtkMiterFraig]
    split
    · rfl
    · split <;> rfl

/-- C8: when the loop ended without a verdict, BDDs are enabled, and the
collapse fails because the node ceiling is exceeded, this is no error and
yields no verdict: the original network instance stays live with its model
and `RetValue` untouched, and on that still-negative verdict the final
last-resort SAT attempt runs, its result becoming the outcome. -/
theorem bdd_ceiling_no_verdict {Ntk : Type} (E : Engines Ntk) (p : Prove_Params_t)
    (ntk : Ntk) (model : Option (List Int)) (rv : Int)
    (h1 : rv < 0) (h2 : p.fUseBdds = true)
    (h3 : E.collapse ntk p.nBddSizeLimit p.fBddReorder = none) :
    bddStage E p ntk model rv = ⟨ntk, model, rv, [Event.bddCall p.nBddSizeLimit]⟩
    ∧ (lastSatStage E p ntk model rv).trace =
        [Event.satLast p.nMiteringLimitLast (remainingInspects p)]
    ∧ (lastSatStage E p ntk model rv).ntk = ntk
    ∧ (lastSatStage E p ntk model rv).retValue =
        (E.miterSat ntk model p.nMiteringLimitLast (remainingInspects p)).retValue := by
  refine ⟨?_, ?_, ?_, ?_⟩
  · unfold bddStage
    rw [if_pos ⟨h1, h2⟩, h3]
  · unfold lastSatStage
    rw [if_pos h1]
  · unfold lastSatStage
    rw [if_pos h1]
  · unfold lastSatStage
    rw [if_pos h1]

/-- C9: with rewriting and fraiging both disabled, the proof call is a
single SAT attempt with the last-resort mitering limit (and inspection
limit literally 0), whose verdict is returned at once: the network handle
is unchanged, the totals are unchanged, and the trace shows no escalation
iteration, no BDD attempt and no model synthesis. -/
theorem minimal_effort_mode {Ntk : Type} (E : Engines Ntk) (p : Prove_Params_t)
    (ntk : Ntk) (model : Option (List Int)) (rvInit : Int)
    (h1 : p.fUseRewriting = false) (h2 : p.fUseFraiging = false) :
    Abc_NtkMiterProve E p ntk model rvInit =
      { retValue := (E.miterSat ntk model p.nMiteringLimitLast 0).retValue
      , ntk := ntk
      , model := (E.miterSat ntk model p.nMiteringLimitLast 0).model
      , params := p
      , trace := [Event.satMinimal p.nMiteringLimitLast 0] } := by
  unfold Abc_NtkMiterProve
  rw [if_pos ⟨h1, h2⟩]

/-- The model-assembly step never returns an absent model for outcome 0. -/
theorem assembleModel_isSome {Ntk : Type} (E : Engines Ntk) (ntk : Ntk)
    (model : Option (List Int)) (rv : Int) (h : rv = 0) :
    (assembleModel E ntk model rv).1.isSome = true := by
  unfold assembleModel
  subst h
  cases model with
  | none => rw [if_pos ⟨rfl, rfl⟩]; rfl
  | some m => rw [if_neg (by simp)]; rfl

/-- C3 (amended): when the BDD collapse succeeds, the verdict is decided
there: 1 (Unsat) exactly when the collapsed network is a single node whose
output fanin is the constant-zero function, and 0 (Sat) for every other
successfully built diagram; in both cases the verdict is nonnegative, so
the final last-resort SAT attempt is skipped.  The collapsed network
replaces the live one and carries no model. -/
theorem bdd_outcome_classification {Ntk : Type} (E : Engines Ntk) (p : Prove_Params_t)
    (ntk : Ntk) (model : Option (List Int)) (rv : Int) (ntk1 : Ntk)
    (h1 : rv < 0) (h2 : p.fUseBdds = true)
    (h3 : E.collapse ntk p.nBddSizeLimit p.fBddReorder = some ntk1) :
    bddStage E p ntk model rv =
      ⟨ntk1, none,
        if E.nodeNum ntk1 = 1 ∧ E.po0FaninIsConstZero ntk1 = true then 1 else 0,
        [Event.bddCall p.nBddSizeLimit]⟩
    ∧ ((bddStage E p ntk model rv).retValue = 1 ↔
        (E.nodeNum ntk1 = 1 ∧ E.po0FaninIsConstZero ntk1 = true))
    ∧ (¬(E.nodeNum ntk1 = 1 ∧ E.po0FaninIsConstZero ntk1 = true) →
        (bddStage E p ntk model rv).retValue = 0)
    ∧ lastSatStage E p (bddStage E p ntk model rv).ntk (bddStage E p ntk model rv).model
        (bddStage E p ntk model rv).retValue =
        ⟨(bddStage E p ntk model rv).ntk, (bddStage E p ntk model rv).model,
          (bddStage E p ntk model rv).retValue, []⟩ := by
  have hb : bddStage E p ntk model rv =
      ⟨ntk1, none,
        if E.nodeNum ntk1 = 1 ∧ E.po0FaninIsConstZero ntk1 = true then 1 else 0,
        [Event.bddCall p.nBddSizeLimit]⟩ := by
    unfold bddStage
    rw [if_pos ⟨h1, h2⟩, h3]
  refine ⟨hb, ?_, ?_, ?_⟩
  · rw [hb]
    by_cases hc : E.nodeNum ntk1 = 1 ∧ E.po0FaninIsConstZero ntk1 = true
    · simp [hc]
    · simp [hc]
  · intro hc
    rw [hb]
    simp [hc]
  · rw [hb]
    dsimp only
    unfold lastSatStage
    rw [if_neg (by split <;> norm_num)]

/-- C7: a Sat outcome always carries a model.  The assembly step of
lines 205-210 attaches an all-zero model with exactly one entry per
combinational input of the surviving network when the outcome is 0 and no
engine attached one, leaves any engine-attached model untouched, and —
given the SAT adapter contract that a 0 verdict comes with a model — every
proof call returning 0 returns a present model. -/
theorem sat_outcome_carries_model :
    (∀ (Ntk : Type) (E : Engines Ntk) (ntk : Ntk),
       assembleModel E ntk none 0 =
         (some (List.replicate (E.ciNum ntk) 0), [Event.modelSynth]))
    ∧ (∀ (Ntk : Type) (E : Engines Ntk) (ntk : Ntk) (m : List Int) (rv : Int),
       assembleModel E ntk (some m) rv = (some m, []))
    ∧ (∀ (Ntk : Type) (E : Engines Ntk) (p : Prove_Params_t) (ntk : Ntk)
         (model : Option (List Int)) (rvInit : Int),
       (∀ (n : Ntk) (m : Option (List Int)) (l il : Int),
          (E.miterSat n m l il).retValue = 0 → (E.miterSat n m l il).model.isSome = true) →
       (Abc_NtkMiterProve E p ntk model rvInit).retValue = 0 →
       (Abc_NtkMiterProve E p ntk model rvInit).model.isSome = true) := by
  refine ⟨?_, ?_, ?_⟩
  · intro Ntk E ntk
    unfold assembleModel
    rw [if_pos ⟨rfl, rfl⟩]
  · intro Ntk E ntk m rv
    unfold assembleModel
    rw [if_neg (by simp)]
  · intro Ntk E p ntk model rvInit hsat
    by_cases hmode : p.fUseRewriting = false ∧ p.fUseFraiging = false
    · unfold Abc_NtkMiterProve
      rw [if_pos hmode]
      intro h
      exact hsat ntk model p.nMiteringLimitLast 0 h
    · cases hrun : runIters E 0 p.nItersMax.toNat p ntk model rvInit with
      | earlyReturn r =>
        rw [miterProve_earlyReturn E p ntk model rvInit r hmode hrun]
        obtain ⟨hm1, _⟩ := runIters_earlyReturn E p.nItersMax.toNat 0 p ntk model rvInit r hrun
        intro h
        rw [h] at hm1
        exact absurd hm1 (by norm_num)
      | fallThrough p1 n1 m1 rv1 tr1 =>
        rw [miterProve_fallThrough E p ntk model rvInit p1 n1 m1 rv1 tr1 hmode hrun]
        simp only []
        intro h
        exact assembleModel_isSome E _ _ _ h

/-- C1 (amended): when rewriting is enabled, a constant verdict reported
by the rewriting driver is captured in the outcome variable but the
controller does not exit the loop there.  With fraiging disabled the body
continues to the next iteration carrying the captured verdict (no break
is issued between the rewriting and fraiging blocks); the captured value
is exactly the driver's verdict for the rewriting-schedule step counter. -/
theorem rewriting_verdict_no_loop_exit {Ntk : Type} (E : Engines Ntk) (p : Prove_Params_t)
    (i : Nat) (ntk : Ntk) (model : Option (List Int))
    (hrw : p.fUseRewriting = true) (hfr : p.fUseFraiging = false)
    (hsat : (satAttempt E p i ntk model).retValue < 0)
    (hnx : resourcesExceeded (accumulate p (satAttempt E p i ntk model).nConfs
        (satAttempt E p i ntk model).nInspects) = false) :
    (let out := satAttempt E p i ntk model
     let p1 := accumulate p out.nConfs out.nInspects
     let res := rwStage E p1 i ntk out.model out.retValue
     iterBody E p i ntk model =
       BodyOut.next res.ntk res.model p1 res.retValue
         (Event.satCall (stageLimit p.nMiteringLimitStart p.nMiteringLimitMulti i)
            (remainingInspects p) :: res.trace)
     ∧ res.retValue =
         (optLoop E 0 ntk out.model
           (stageLimit p.nRewritingLimitStart p.nRewritingLimitMulti i)
           (stageLimit p.nRewritingLimitStart p.nRewritingLimitMulti i).toNat).retValue) := by
  simp only []
  constructor
  · rw [iterBody_sat_cont E p i ntk model hsat hnx]
    simp only []
    unfold fraigStage
    rw [if_neg (by simp [accumulate, hfr])]
    simp [BodyOut.prependTrace]
  · unfold rwStage
    rw [if_pos (by simp [accumulate, hrw])]
    rfl

/-- C2 (amended): consumption is added to the running totals and the
global ceilings are checked immediately after the per-iteration SAT
attempt and after the fraiging attempt — exactly once each, aborting on a
breach — while the minimal-effort-mode SAT attempt and the final
last-resort SAT attempt are invoked with NULL consumption out-pointers:
their consumption is neither accumulated nor checked, and the totals the
caller observes are the ones accumulated inside the loop. -/
theorem budget_accounting_sites :
    (∀ (Ntk : Type) (E : Engines Ntk) (p : Prove_Params_t) (i : Nat) (ntk : Ntk)
       (model : Option (List Int)),
       (satAttempt E p i ntk model).retValue < 0 →
       resourcesExceeded (accumulate p (satAttempt E p i ntk model).nConfs
           (satAttempt E p i ntk model).nInspects) = true →
       iterBody E p i ntk model =
         .abort ntk (satAttempt E p i ntk model).model
           (accumulate p (satAttempt E p i ntk model).nConfs
             (satAttempt E p i ntk model).nInspects)
           [Event.satCall (stageLimit p.nMiteringLimitStart p.nMiteringLimitMulti i)
              (remainingInspects p)])
    ∧ (∀ (Ntk : Type) (E : Engines Ntk) (p : Prove_Params_t) (i : Nat) (ntk : Ntk)
         (model : Option (List Int)) (rv : Int), p.fUseFraiging = true →
       (E.fraigMan ntk (stageLimit p.nFraigingLimitStart p.nFraigingLimitMulti i)
           (remainingInspects p)).retValue < 0 →
       resourcesExceeded (accumulate p
           (E.fraigMan ntk (stageLimit p.nFraigingLimitStart p.nFraigingLimitMulti i)
             (remainingInspects p)).nConfs
           (E.fraigMan ntk (stageLimit p.nFraigingLimitStart p.nFraigingLimitMulti i)
             (remainingInspects p)).nInspects) = true →
       fraigStage E p i ntk model rv =
         (let f := Abc_NtkMiterFraig E ntk
            (stageLimit p.nFraigingLimitStart p.nFraigingLimitMulti i) (remainingInspects p)
          BodyOut.abort f.1.ntk f.2 (accumulate p f.1.nConfs f.1.nInspects)
            [Event.fraigCall (stageLimit p.nFraigingLimitStart p.nFraigingLimitMulti i)
               (remainingInspects p)]))
    ∧ (∀ (Ntk : Type) (E : Engines Ntk) (p : Prove_Params_t) (i : Nat) (ntk : Ntk)
         (model : Option (List Int)) (rv : Int), p.fUseFraiging = true →
       (E.fraigMan ntk (stageLimit p.nFraigingLimitStart p.nFraigingLimitMulti i)
           (remainingInspects p)).retValue < 0 →
       resourcesExceeded (accumulate p
           (E.fraigMan ntk (stageLimit p.nFraigingLimitStart p.nFraigingLimitMulti i)
             (remainingInspects p)).nConfs
           (E.fraigMan ntk (stageLimit p.nFraigingLimitStart p.nFraigingLimitMulti i)
             (remainingInspects p)).nInspects) = false →
       fraigStage E p i ntk model rv =
         (let f := Abc_NtkMiterFraig E ntk
            (stageLimit p.nFraigingLimitStart p.nFraigingLimitMulti i) (remainingInspects p)
          BodyOut.next f.1.ntk f.2 (accumulate p f.1.nConfs f.1.nInspects) f.1.retValue
            [Event.fraigCall (stageLimit p.nFraigingLimitStart p.nFraigingLimitMulti i)
               (remainingInspects p)]))
    ∧ (∀ (Ntk : Type) (E : Engines Ntk) (p : Prove_Params_t) (ntk : Ntk)
         (model : Option (List Int)) (rvInit : Int),
       p.fUseRewriting = false → p.fUseFraiging = false →
       (Abc_NtkMiterProve E p ntk model rvInit).params = p)
    ∧ (∀ (Ntk : Type) (E : Engines Ntk) (p : Prove_Params_t) (ntk : Ntk)
         (model : Option (List Int)) (rvInit : Int) (p1 : Prove_Params_t) (ntk1 : Ntk)
         (model1 : Option (List Int)) (rv1 : Int) (tr1 : List Event),
       ¬(p.fUseRewriting = false ∧ p.fUseFraiging = false) →
       runIters E 0 p.nItersMax.toNat p ntk model rvInit = .fallThrough p1 ntk1 model1 rv1 tr1 →
       (Abc_NtkMiterProve E p ntk model rvInit).params = p1) := by
  refine ⟨?_, ?_, ?_, ?_, ?_⟩
  · intro Ntk E p i ntk model h1 h2
    exact iterBody_sat_abort E p i ntk model h1 h2
  · intro Ntk E p i ntk model rv hf h1 h2
    exact fraigStage_abort E p i ntk model rv hf h1 h2
  · intro Ntk E p i ntk model rv hf h1 h2
    exact fraigStage_cont E p i ntk model rv hf h1 h2
  · intro Ntk E p ntk model rvInit h1 h2
    unfold Abc_NtkMiterProve
    rw [if_pos ⟨h1, h2⟩]
  · intro Ntk E p ntk model rvInit p1 ntk1 model1 rv1 tr1 hmode hrun
    rw [miterProve_fallThrough E p ntk model rvInit p1 ntk1 model1 rv1 tr1 hmode hrun]

/-- C5: when the running totals, immediately after absorbing the
consumption of the per-iteration SAT attempt or of the fraiging attempt,
meet or exceed a nonzero global ceiling, that body outcome is an abort
carrying the current live network and the updated totals; any abort makes
the whole loop return early with `RetValue = -1` and a trace of
loop-internal events only (no BDD attempt, no final SAT attempt, no model
synthesis), and the proof call returns that early result unchanged. -/
theorem global_ceiling_abort :
    (∀ (Ntk : Type) (E : Engines Ntk) (p : Prove_Params_t) (i : Nat) (ntk : Ntk)
       (model : Option (List Int)),
       (satAttempt E p i ntk model).retValue < 0 →
       resourcesExceeded (accumulate p (satAttempt E p i ntk model).nConfs
           (satAttempt E p i ntk model).nInspects) = true →
       iterBody E p i ntk model =
         .abort ntk (satAttempt E p i ntk model).model
           (accumulate p (satAttempt E p i ntk model).nConfs
             (satAttempt E p i ntk model).nInspects)
           [Event.satCall (stageLimit p.nMiteringLimitStart p.nMiteringLimitMulti i)
              (remainingInspects p)])
    ∧ (∀ (Ntk : Type) (E : Engines Ntk) (p : Prove_Params_t) (i : Nat) (ntk : Ntk)
         (model : Option (List Int)) (rv : Int), p.fUseFraiging = true →
       (E.fraigMan ntk (stageLimit p.nFraigingLimitStart p.nFraigingLimitMulti i)
           (remainingInspects p)).retValue < 0 →
       resourcesExceeded (accumulate p
           (E.fraigMan ntk (stageLimit p.nFraigingLimitStart p.nFraigingLimitMulti i)
             (remainingInspects p)).nConfs
           (E.fraigMan ntk (stageLimit p.nFraigingLimitStart p.nFraigingLimitMulti i)
             (remainingInspects p)).nInspects) = true →
       fraigStage E p i ntk model rv =
         (let f := Abc_NtkMiterFraig E ntk
            (stageLimit p.nFraigingLimitStart p.nFraigingLimitMulti i) (remainingInspects p)
          BodyOut.abort f.1.ntk f.2 (accumulate p f.1.nConfs f.1.nInspects)
            [Event.fraigCall (stageLimit p.nFraigingLimitStart p.nFraigingLimitMulti i)
               (remainingInspects p)]))
    ∧ (∀ (Ntk : Type) (E : Engines Ntk) (fuel i : Nat) (p : Prove_Params_t) (ntk : Ntk)
         (model : Option (List Int)) (rv : Int) (r : ProveResult Ntk),
       runIters E i fuel p ntk model rv = .earlyReturn r →
       r.retValue = -1 ∧ ∀ e ∈ r.trace, e.inLoop = true)
    ∧ (∀ (Ntk : Type) (E : Engines Ntk) (p : Prove_Params_t) (ntk : Ntk)
         (model : Option (List Int)) (rvInit : Int) (r : ProveResult Ntk),
       ¬(p.fUseRewriting = false ∧ p.fUseFraiging = false) →
       runIters E 0 p.nItersMax.toNat p ntk model rvInit = .earlyReturn r →
       Abc_NtkMiterProve E p ntk model rvInit = r) := by
  refine ⟨?_, ?_, ?_, ?_⟩
  · intro Ntk E p i ntk model h1 h2
    exact iterBody_sat_abort E p i ntk model h1 h2
  · intro Ntk E p i ntk model rv hf h1 h2
    exact fraigStage_abort E p i ntk model rv hf h1 h2
  · intro Ntk E fuel i p ntk model rv r h
    exact runIters_earlyReturn E fuel i p ntk model rv r h
  · intro Ntk E p ntk model rvInit r hmode hrun
    exact miterProve_earlyReturn E p ntk model rvInit r hmode hrun

/-- C10: with an iteration cap of at least 1 while rewriting or fraiging
is enabled, the outcome of the proof call does not depend on the initial
content of the uninitialized `RetValue` variable; with a cap of 0 it does:
a concrete run returns 1 (Unsat) or -1 (Timeout) purely according to the
garbage value the variable happens to hold, so the result is not
well-defined in that mode. -/
theorem zero_iteration_cap_undefined :
    (∀ (Ntk : Type) (E : Engines Ntk) (p : Prove_Params_t) (ntk : Ntk)
       (model : Option (List Int)) (rv1 rv2 : Int),
       1 ≤ p.nItersMax →
       (p.fUseRewriting = true ∨ p.fUseFraiging = true) →
       Abc_NtkMiterProve E p ntk model rv1 = Abc_NtkMiterProve E p ntk model rv2)
    ∧ (Abc_NtkMiterProve idleEng zeroCapPar 0 none 1).retValue = 1
    ∧ (Abc_NtkMiterProve idleEng zeroCapPar 0 none (-1)).retValue = -1
    ∧ Abc_NtkMiterProve idleEng zeroCapPar 0 none 1 ≠
        Abc_NtkMiterProve idleEng zeroCapPar 0 none (-1) := by
  have hA : (Abc_NtkMiterProve idleEng zeroCapPar 0 none 1).retValue = 1 := by decide
  have hB : (Abc_NtkMiterProve idleEng zeroCapPar 0 none (-1)).retValue = -1 := by decide
  refine ⟨?_, hA, hB, ?_⟩
  · intro Ntk E p ntk model rv1 rv2 hcap hmode
    unfold Abc_NtkMiterProve
    have hcond : ¬(p.fUseRewriting = false ∧ p.fUseFraiging = false) := by
      rintro ⟨ha, hb⟩
      rcases hmode with h | h <;> simp_all
    rw [if_neg hcond, if_neg hcond]
    obtain ⟨k, hk⟩ : ∃ k, p.nItersMax.toNat = k + 1 := ⟨p.nItersMax.toNat - 1, by omega⟩
    rw [hk, runIters_succ E 0 k p ntk model rv1, runIters_succ E 0 k p ntk model rv2]
  · intro h
    rw [h, hB] at hA
    exact absurd hA (by decide)

/-- C1 fails on the code: in this run the rewriting driver reports the
constant verdict 1 (Unsat) during iteration 0, yet the fraiging stage of
the same iteration still executes and overwrites the verdict with 0; the
call returns 0, not the captured verdict, and the fraig call appears in
the trace after the rewriting application. -/
theorem rewriting_verdict_overwritten_cex :
    rwConstEng.miterIsConstant (rwConstEng.rewriteNtk 10) = 1
    ∧ (Abc_NtkMiterProve rwConstEng rwConstPar 10 none (-1)).retValue = 0
    ∧ (Abc_NtkMiterProve rwConstEng rwConstPar 10 none (-1)).trace =
        [Event.satCall 8 0, Event.optStage 1, Event.rewriteApp, Event.fraigCall 6 0] := by
  refine ⟨?_, ?_, ?_⟩ <;> with_unfolding_all decide

/-- C2 fails on the code: the minimal-effort-mode SAT attempt consumes 7
inspections against a global inspection ceiling of 1, yet nothing is
added to the running totals and no ceiling check is made — the call
returns the attempt's verdict 1 instead of aborting with Timeout. -/
theorem minimal_sat_not_accounted_cex :
    (consumingSatEng.miterSat 0 none minimalCeilPar.nMiteringLimitLast 0).nInspects = 7
    ∧ minimalCeilPar.nTotalInspectLimit = 1
    ∧ (Abc_NtkMiterProve consumingSatEng minimalCeilPar 0 none (-1)).params.nTotalInspectsMade = 0
    ∧ (Abc_NtkMiterProve consumingSatEng minimalCeilPar 0 none (-1)).retValue = 1 := by
  refine ⟨by decide, by decide, by decide, by decide⟩

/-- C3 fails on the code: a successfully collapsed diagram with three
nodes (not the single constant-zero node) is not treated as inconclusive —
the C comparison makes the verdict 0 (Sat), the final last-resort SAT
attempt never runs, and an all-zero model is synthesized instead. -/
theorem bdd_nonconstant_sat_cex :
    bddSatEng.nodeNum 99 = 3
    ∧ bddSatEng.collapse 7 bddPar.nBddSizeLimit bddPar.fBddReorder = some 99
    ∧ (Abc_NtkMiterProve bddSatEng bddPar 7 none (-1)).retValue = 0
    ∧ (Abc_NtkMiterProve bddSatEng bddPar 7 none (-1)).trace =
        [Event.satCall 8 0, Event.fraigCall 6 0, Event.bddCall 50, Event.modelSynth] := by
  refine ⟨?_, ?_, ?_, ?_⟩ <;> with_unfolding_all decide

theorem rewriting_verdict_no_loop_exit_wit :
    (rwStage rwConstEng
        (accumulate rwOnlyPar (satAttempt rwConstEng rwOnlyPar 0 10 none).nConfs
          (satAttempt rwConstEng rwOnlyPar 0 10 none).nInspects)
        0 10 (satAttempt rwConstEng rwOnlyPar 0 10 none).model
        (satAttempt rwConstEng rwOnlyPar 0 10 none).retValue).retValue =
      (optLoop rwConstEng 0 10 (satAttempt rwConstEng rwOnlyPar 0 10 none).model
        (stageLimit rwOnlyPar.nRewritingLimitStart rwOnlyPar.nRewritingLimitMulti 0)
        (stageLimit rwOnlyPar.nRewritingLimitStart rwOnlyPar.nRewritingLimitMulti 0).toNat).retValue :=
  (rewriting_verdict_no_loop_exit rwConstEng rwOnlyPar 0 10 none rfl rfl (by decide)
    (by decide)).2

theorem budget_accounting_sites_wit :
    (Abc_NtkMiterProve consumingSatEng minimalCeilPar 0 none (-1)).params = minimalCeilPar :=
  budget_accounting_sites.2.2.2.1 Nat consumingSatEng minimalCeilPar 0 none (-1) rfl rfl

theorem bdd_outcome_classification_wit :
    (bddStage bddSatEng bddPar 7 none (-1)).retValue = 0 :=
  (bdd_outcome_classification bddSatEng bddPar 7 none (-1) 99 (by decide) (by decide)
    (by decide)).2.2.1 (by decide)

theorem optimization_driver_contract_wit :
    (optLoop idleEng 0 0 none 3 (3 : Int).toNat).trace.length ≤ (3 : Int).toNat :=
  (optimization_driver_contract idleEng 0 none 3 (by decide)).2.1

theorem global_ceiling_abort_wit :
    iterBody timeoutSatEng ceilPar 0 0 none =
      .abort 0 (satAttempt timeoutSatEng ceilPar 0 0 none).model
        (accumulate ceilPar (satAttempt timeoutSatEng ceilPar 0 0 none).nConfs
          (satAttempt timeoutSatEng ceilPar 0 0 none).nInspects)
        [Event.satCall (stageLimit ceilPar.nMiteringLimitStart ceilPar.nMiteringLimitMulti 0)
           (remainingInspects ceilPar)] :=
  global_ceiling_abort.1 Nat timeoutSatEng ceilPar 0 0 none (by decide) (by decide)

theorem geometric_schedule_wit :
    stageLimit 100 2 3 = Int.floor ((100 : Rat) * 2 ^ 3) :=
  geometric_schedule.1 100 2 3 (by norm_num) (by norm_num)

theorem sat_outcome_carries_model_wit :
    (Abc_NtkMiterProve satZeroEng basePar 0 none (-1)).model.isSome = true :=
  sat_outcome_carries_model.2.2 Nat satZeroEng basePar 0 none (-1)
    (fun _ _ _ _ _ => rfl) (by decide)

theorem bdd_ceiling_no_verdict_wit :
    bddStage idleEng bddFailPar 4 none (-1) =
      ⟨4, none, -1, [Event.bddCall bddFailPar.nBddSizeLimit]⟩ :=
  (bdd_ceiling_no_verdict idleEng bddFailPar 4 none (-1) (by decide) (by decide) (by decide)).1

theorem minimal_effort_mode_wit :
    Abc_NtkMiterProve idleEng basePar 3 none 7 =
      { retValue := (idleEng.miterSat 3 none basePar.nMiteringLimitLast 0).retValue
      , ntk := 3
      , model := (idleEng.miterSat 3 none basePar.nMiteringLimitLast 0).model
      , params := basePar
      , trace := [Event.satMinimal basePar.nMiteringLimitLast 0] } :=
  minimal_effort_mode idleEng basePar 3 none 7 rfl rfl

theorem zero_iteration_cap_undefined_wit :
    Abc_NtkMiterProve rwConstEng rwConstPar 10 none 5 =
      Abc_NtkMiterProve rwConstEng rwConstPar 10 none (-5) :=
  zero_iteration_cap_undefined.1 Nat rwConstEng rwConstPar 10 none 5 (-5) (by decide)
    (Or.inl rfl)
